import Mathlib

/-!
# Verification of the csv-data-visualiser core

Shallow embedding of the column classifier (`detect_data_type`), the
date-coercion preprocessing step (`handle_dataframe`) from `app.py`, the
credential store (`add_user` / `verify_user`) from `database.py`, and the
spec-described strongest-correlation narrative fact (no narrative code
ships in this repository's sources, so that part is modelled from the
spec).

A pandas `Series` is modelled as a `Col`: a name, a storage dtype and a
list of cells.  pandas dtypes are column-level, so the dtype is carried
explicitly; cells can be null (`NaN` / `NaT`).
-/

namespace CsvViz

/-- A calendar date, the shallow model of a parsed pandas timestamp.
`handle_dataframe` only ever parses date-like strings and compares /
regroups them by month, so the day-resolution triple is sufficient. -/
structure Date where
  year : Nat
  month : Nat
  day : Nat
deriving DecidableEq, Repr

/-- A single cell of a column: null (pandas `NaN`/`NaT`), a number, a
string, a parsed timestamp, or a monthly period (result of
`.dt.to_period('M')`). -/
inductive Cell where
  | null : Cell
  | num : ℚ → Cell
  | str : String → Cell
  | dt : Date → Cell
  | per : Nat → Nat → Cell
deriving DecidableEq, Repr

/-- Column-level storage dtype, the shallow model of a pandas dtype.
`numeric` covers `int64`/`float64` (`pd.api.types.is_numeric_dtype`),
`text` covers string/object columns (`pd.api.types.is_string_dtype`),
`datetime` covers `datetime64` (`pd.api.types.is_datetime64_any_dtype`),
`period` covers `PeriodDtype`, `other` anything else. -/
inductive Dtype where
  | numeric : Dtype
  | text : Dtype
  | datetime : Dtype
  | period : Dtype
  | other : Dtype
deriving DecidableEq, Repr

/-- A named column: the unit `detect_data_type` and the per-column loop of
`handle_dataframe` operate on. -/
structure Col where
  name : String
  dtype : Dtype
  cells : List Cell
deriving DecidableEq, Repr

/-- `column.isnull().all()`: every cell is null (vacuously true for a
zero-row column, as in pandas). -/
def allNull (cells : List Cell) : Bool :=
  cells.all (· = Cell.null)

/-- `column.nunique()`: the number of distinct non-null cells (pandas
`nunique` drops nulls by default). -/
def nunique (cells : List Cell) : Nat :=
  ((cells.filter (· ≠ Cell.null)).dedup).length

/-- The cardinality ratio `column.nunique() / len(column)` used by
`detect_data_type`, as an exact rational. -/
def cardRatio (cells : List Cell) : ℚ :=
  (nunique cells : ℚ) / (cells.length : ℚ)

/-- Embedding of `detect_data_type` (app.py lines 334-363): all-null →
`empty`; datetime dtype → `datetime`; numeric dtype → `numeric` when the
cardinality ratio exceeds 0.5, else `categorical`; string dtype →
`categorical` when the ratio is below 0.5, else `text`; any other dtype →
`categorical`. -/
def detect_data_type (col : Col) : String :=
  if allNull col.cells then "empty"
  else if col.dtype = Dtype.datetime then "datetime"
  else if col.dtype = Dtype.numeric then
    if cardRatio col.cells > 1/2 then "numeric" else "categorical"
  else if col.dtype = Dtype.text then
    if cardRatio col.cells < 1/2 then "categorical" else "text"
  else "categorical"

/-- A guarded variant of `detect_data_type` that refuses (returns `none`)
whenever it would evaluate the cardinality-ratio division with a zero row
count.  Agreement with `detect_data_type` shows the division-by-zero
branch of the source is unreachable. -/
def detect_data_type_checked (col : Col) : Option String :=
  if allNull col.cells then some "empty"
  else if col.dtype = Dtype.datetime then some "datetime"
  else if col.dtype = Dtype.numeric then
    if col.cells.length = 0 then none
    else some (if cardRatio col.cells > 1/2 then "numeric" else "categorical")
  else if col.dtype = Dtype.text then
    if col.cells.length = 0 then none
    else some (if cardRatio col.cells < 1/2 then "categorical" else "text")
  else some "categorical"

/-- A column that is not all-null has at least one cell. -/
theorem length_pos_of_not_allNull {cells : List Cell}
    (h : ¬ allNull cells = true) : 0 < cells.length := by
  cases cells with
  | nil => simp [allNull] at h
  | cons c cs => simp

/-- C1: a numeric-dtype column that is not all-null is classified
`numeric` exactly when its cardinality ratio exceeds 0.5, and
`categorical` at or below that ratio. -/
theorem detect_numeric_threshold (col : Col)
    (hdt : col.dtype = Dtype.numeric)
    (hnn : ¬ allNull col.cells = true) :
    (cardRatio col.cells > 1/2 → detect_data_type col = "numeric") ∧
    (¬ cardRatio col.cells > 1/2 → detect_data_type col = "categorical") := by
  constructor <;> intro h <;> simp [detect_data_type, hdt, hnn]
  · linarith
  · push_neg at h; linarith

/-- A numeric column with 5 distinct values in 10 rows: ratio exactly 0.5. -/
def boundaryNumericCol : Col :=
  ⟨"rating", Dtype.numeric,
    [Cell.num 1, Cell.num 1, Cell.num 2, Cell.num 2, Cell.num 3,
     Cell.num 3, Cell.num 4, Cell.num 4, Cell.num 5, Cell.num 5]⟩

theorem detect_numeric_threshold_witness :
    ¬ allNull boundaryNumericCol.cells = true ∧
    detect_data_type boundaryNumericCol = "categorical" :=
  ⟨by decide,
   (detect_numeric_threshold boundaryNumericCol rfl (by decide)).2
     (by
       have h1 : nunique boundaryNumericCol.cells = 5 := by decide
       have h2 : boundaryNumericCol.cells.length = 10 := by decide
       simp only [cardRatio, h1, h2]
       norm_num)⟩

/-- C2: a text-dtype column that is not all-null is classified
`categorical` exactly when its cardinality ratio is below 0.5, and `text`
at or above that ratio. -/
theorem detect_text_threshold (col : Col)
    (hdt : col.dtype = Dtype.text)
    (hnn : ¬ allNull col.cells = true) :
    (cardRatio col.cells < 1/2 → detect_data_type col = "categorical") ∧
    (¬ cardRatio col.cells < 1/2 → detect_data_type col = "text") := by
  constructor <;> intro h <;> simp [detect_data_type, hdt, hnn]
  · linarith
  · push_neg at h; linarith

/-- A text column with 2 distinct values in 4 rows: ratio exactly 0.5. -/
def boundaryTextCol : Col :=
  ⟨"city", Dtype.text, [Cell.str "a", Cell.str "a", Cell.str "b", Cell.str "b"]⟩

/-- A single-row text column: ratio 1.0. -/
def singleRowTextCol : Col :=
  ⟨"note", Dtype.text, [Cell.str "hello"]⟩

theorem detect_text_threshold_witness :
    (¬ allNull boundaryTextCol.cells = true ∧
      detect_data_type boundaryTextCol = "text") ∧
    (¬ allNull singleRowTextCol.cells = true ∧
      detect_data_type singleRowTextCol = "text") :=
  ⟨⟨by decide,
    (detect_text_threshold boundaryTextCol rfl (by decide)).2
      (by
        have h1 : nunique boundaryTextCol.cells = 2 := by decide
        have h2 : boundaryTextCol.cells.length = 4 := by decide
        simp only [cardRatio, h1, h2]
        norm_num)⟩,
   ⟨by decide,
    (detect_text_threshold singleRowTextCol rfl (by decide)).2
      (by
        have h1 : nunique singleRowTextCol.cells = 1 := by decide
        have h2 : singleRowTextCol.cells.length = 1 := by decide
        simp only [cardRatio, h1, h2]
        norm_num)⟩⟩

/-- C4: an all-null column is classified `empty`, whatever its dtype. -/
theorem detect_allNull_empty (col : Col) (h : allNull col.cells = true) :
    detect_data_type col = "empty" := by
  simp [detect_data_type, h]

theorem detect_allNull_empty_witness :
    (allNull (Col.mk "a" Dtype.numeric [Cell.null, Cell.null]).cells = true ∧
      detect_data_type ⟨"a", Dtype.numeric, [Cell.null, Cell.null]⟩ = "empty") ∧
    (allNull (Col.mk "b" Dtype.text [Cell.null]).cells = true ∧
      detect_data_type ⟨"b", Dtype.text, [Cell.null]⟩ = "empty") ∧
    (allNull (Col.mk "c" Dtype.datetime []).cells = true ∧
      detect_data_type ⟨"c", Dtype.datetime, []⟩ = "empty") :=
  ⟨⟨by decide, detect_allNull_empty ⟨"a", Dtype.numeric, [Cell.null, Cell.null]⟩ (by decide)⟩,
   ⟨by decide, detect_allNull_empty ⟨"b", Dtype.text, [Cell.null]⟩ (by decide)⟩,
   ⟨by decide, detect_allNull_empty ⟨"c", Dtype.datetime, []⟩ (by decide)⟩⟩

/-- C5: classification is total — it returns exactly one of the five tags
on every column — and it agrees with the guarded variant that evaluates
the cardinality-ratio division only under a positive row count, so the
division-by-zero branch is unreachable. -/
theorem detect_total_checked (col : Col) :
    detect_data_type_checked col = some (detect_data_type col) ∧
    detect_data_type col ∈ ["empty", "numeric", "categorical", "text", "datetime"] := by
  constructor
  · by_cases h : allNull col.cells = true
    · simp [detect_data_type, detect_data_type_checked, h]
    · have hlen : col.cells.length ≠ 0 :=
        Nat.pos_iff_ne_zero.mp (length_pos_of_not_allNull h)
      cases hd : col.dtype <;>
        simp [detect_data_type, detect_data_type_checked, h, hlen, hd]
  · unfold detect_data_type
    repeat' split
    all_goals simp

theorem detect_total_checked_witness :
    detect_data_type_checked ⟨"x", Dtype.numeric, [Cell.num 7]⟩ =
      some (detect_data_type ⟨"x", Dtype.numeric, [Cell.num 7]⟩) ∧
    detect_data_type ⟨"x", Dtype.numeric, [Cell.num 7]⟩ ∈
      ["empty", "numeric", "categorical", "text", "datetime"] :=
  detect_total_checked ⟨"x", Dtype.numeric, [Cell.num 7]⟩

/-! ## Date-like coercion (`handle_dataframe`, app.py lines 138-159) -/

/-- ASCII lowercasing of one character, the model of Python's
`str.lower()` on the ASCII column names the code compares against. -/
def toLowerChar (c : Char) : Char :=
  if 'A' ≤ c ∧ c ≤ 'Z' then Char.ofNat (c.toNat + 32) else c

/-- Naive substring test on character lists, the model of Python's
`needle in haystack`. -/
def containsSub (w : List Char) : List Char → Bool
  | [] => w.isPrefixOf []
  | c :: t => w.isPrefixOf (c :: t) || containsSub w t

/-- `keyword in column.lower()` for an ASCII keyword. -/
def containsKeyword (kw : String) (name : String) : Bool :=
  containsSub kw.data (name.data.map toLowerChar)

/-- The column-name test of `handle_dataframe`:
`'month' in column.lower() or 'date' in column.lower() or 'time' in column.lower()`. -/
def hasDTKeyword (name : String) : Bool :=
  containsKeyword "month" name || containsKeyword "date" name ||
    containsKeyword "time" name

/-- `'month' in column.lower()`, the guard of the `.dt.to_period('M')` step. -/
def hasMonthKeyword (name : String) : Bool :=
  containsKeyword "month" name

/-- Reads a run of decimal digits as a number; `none` on any non-digit. -/
def digitsToNat (cs : List Char) : Option Nat :=
  cs.foldl
    (fun acc c =>
      acc.bind fun a =>
        if '0' ≤ c ∧ c ≤ '9' then some (10 * a + (c.toNat - 48)) else none)
    (some 0)

/-- Splits a character list at every `'-'`. -/
def splitDash : List Char → List (List Char)
  | [] => [[]]
  | c :: t =>
    if c = '-' then [] :: splitDash t
    else
      match splitDash t with
      | [] => [[c]]
      | g :: gs => (c :: g) :: gs

/-- Model of the string-to-timestamp parse inside
`pd.to_datetime(column, errors='coerce')`, restricted to the ISO
`YYYY-MM-DD` shape; any string not of this shape is unparseable and,
under `errors='coerce'`, becomes null. -/
def parseISODate (s : String) : Option Date :=
  match splitDash s.data with
  | [ys, ms, ds] =>
    if ys.length = 4 ∧ ms.length = 2 ∧ ds.length = 2 then
      match digitsToNat ys, digitsToNat ms, digitsToNat ds with
      | some y, some m, some d =>
        if 1 ≤ m ∧ m ≤ 12 ∧ 1 ≤ d ∧ d ≤ 31 then some ⟨y, m, d⟩ else none
      | _, _, _ => none
    else none
  | _ => none

/-- Per-cell action of `pd.to_datetime(column, errors='coerce')`: nulls
stay null, timestamps stay themselves, strings parse or become null
(`NaT`), and any other non-convertible value becomes null. -/
def coerceCell : Cell → Cell
  | Cell.null => Cell.null
  | Cell.num _ => Cell.null
  | Cell.str s =>
    match parseISODate s with
    | some d => Cell.dt d
    | none => Cell.null
  | Cell.dt d => Cell.dt d
  | Cell.per y m => Cell.per y m

/-- Per-cell action of `.dt.to_period('M')` on the datetime column
produced by `pd.to_datetime`: a timestamp becomes its monthly period. -/
def toPeriodCell : Cell → Cell
  | Cell.dt d => Cell.per d.year d.month
  | _ => Cell.null

/-- The per-column body of `handle_dataframe`'s loop: numeric columns are
skipped; a column whose name contains `month`, `date` or `time` is run
through `pd.to_datetime(..., errors='coerce')` and, when the name
contains `month`, additionally through `.dt.to_period('M')`; all other
columns are left untouched. -/
def processColumn (col : Col) : Col :=
  if col.dtype = Dtype.numeric then col
  else if hasDTKeyword col.name then
    let coerced := col.cells.map coerceCell
    if hasMonthKeyword col.name then
      ⟨col.name, Dtype.period, coerced.map toPeriodCell⟩
    else
      ⟨col.name, Dtype.datetime, coerced⟩
  else col

/-- Embedding of `handle_dataframe` (app.py lines 138-159): the loop over
the dataframe's columns. -/
def handle_dataframe (df : List Col) : List Col :=
  df.map processColumn

/-- A well-formed datetime column holds only timestamps and nulls. -/
def isTemporalCell : Cell → Bool
  | Cell.null => true
  | Cell.dt _ => true
  | _ => false

theorem coerceCell_temporal {c : Cell} (h : isTemporalCell c = true) :
    coerceCell c = c := by
  cases c <;> simp_all [isTemporalCell, coerceCell]

theorem map_coerceCell_of_temporal {cells : List Cell}
    (h : cells.all isTemporalCell = true) :
    cells.map coerceCell = cells := by
  induction cells with
  | nil => rfl
  | cons c t ih =>
    simp only [List.all_cons, Bool.and_eq_true] at h
    simp [coerceCell_temporal h.1, ih h.2]

theorem coerceCell_idem (c : Cell) :
    coerceCell (coerceCell c) = coerceCell c := by
  cases c with
  | str s => simp only [coerceCell]; cases parseISODate s <;> simp [coerceCell]
  | _ => rfl

theorem processColumn_idem (col : Col)
    (hm : ¬ hasMonthKeyword col.name = true) :
    processColumn (processColumn col) = processColumn col := by
  by_cases hn : col.dtype = Dtype.numeric
  · simp [processColumn, hn]
  · by_cases hk : hasDTKeyword col.name = true
    · simp [processColumn, hn, hk, hm, List.map_map, Function.comp_def,
        coerceCell_idem]
    · simp [processColumn, hn, hk]

/-- A text column named `date` in which one cell parses and one does not. -/
def partialDateCol : Col :=
  ⟨"date", Dtype.text, [Cell.str "2020-01-05", Cell.str "hello"]⟩

/-- A text column of fully parseable dates whose name has no date keyword. -/
def plainDatesCol : Col :=
  ⟨"x", Dtype.text, [Cell.str "2020-01-05", Cell.str "2021-02-06"]⟩

/-- C3 counterexample: `handle_dataframe` coerces the keyword-named
column `date` even though only some of its cells parse, replacing the
unparseable cell by a null — so a partial-match column is not left
unchanged — while the fully parseable column `x`, whose name lacks the
`month`/`date`/`time` keywords, is never reinterpreted at all. -/
theorem handle_dataframe_c3_counterexample :
    handle_dataframe [partialDateCol] =
      [⟨"date", Dtype.datetime, [Cell.dt ⟨2020, 1, 5⟩, Cell.null]⟩] ∧
    handle_dataframe [partialDateCol] ≠ [partialDateCol] ∧
    handle_dataframe [plainDatesCol] = [plainDatesCol] := by
  decide

/-- C3 amended: date coercion considers only non-numeric columns whose
name contains `month`, `date` or `time`; numeric columns and columns
without such a name are left unchanged even when fully parseable.  A
considered column has each cell coerced independently, unparseable cells
becoming null, and is always adopted as temporal: as datetime when its
name lacks `month`, as monthly periods when it contains `month`. -/
theorem handle_dataframe_c3_amended (col : Col) :
    (¬ hasDTKeyword col.name = true → processColumn col = col) ∧
    (col.dtype = Dtype.numeric → processColumn col = col) ∧
    (col.dtype ≠ Dtype.numeric → hasDTKeyword col.name = true →
      ¬ hasMonthKeyword col.name = true →
      (processColumn col).dtype = Dtype.datetime ∧
      (processColumn col).cells = col.cells.map coerceCell) ∧
    (col.dtype ≠ Dtype.numeric → hasDTKeyword col.name = true →
      hasMonthKeyword col.name = true →
      (processColumn col).dtype = Dtype.period ∧
      (processColumn col).cells =
        (col.cells.map coerceCell).map toPeriodCell) := by
  refine ⟨?_, ?_, ?_, ?_⟩
  · intro hk
    by_cases hn : col.dtype = Dtype.numeric <;> simp [processColumn, hn, hk]
  · intro hn
    simp [processColumn, hn]
  · intro hn hk hm
    simp [processColumn, hn, hk, hm]
  · intro hn hk hm
    simp [processColumn, hn, hk, hm]

/-- A numeric column whose name contains `date`: skipped by the dtype
guard before the name is ever examined. -/
def numericDateCol : Col :=
  ⟨"date_count", Dtype.numeric, [Cell.num 3, Cell.num 5]⟩

/-- A text column named `month` in which one cell parses and one does not. -/
def monthTextCol : Col :=
  ⟨"month", Dtype.text, [Cell.str "2020-01-05", Cell.str "oops"]⟩

theorem handle_dataframe_c3_amended_witness :
    (¬ hasDTKeyword plainDatesCol.name = true ∧
      processColumn plainDatesCol = plainDatesCol) ∧
    (numericDateCol.dtype = Dtype.numeric ∧
      processColumn numericDateCol = numericDateCol) ∧
    (partialDateCol.dtype ≠ Dtype.numeric ∧
      hasDTKeyword partialDateCol.name = true ∧
      ¬ hasMonthKeyword partialDateCol.name = true ∧
      ((processColumn partialDateCol).dtype = Dtype.datetime ∧
        (processColumn partialDateCol).cells =
          partialDateCol.cells.map coerceCell)) ∧
    (monthTextCol.dtype ≠ Dtype.numeric ∧
      hasDTKeyword monthTextCol.name = true ∧
      hasMonthKeyword monthTextCol.name = true ∧
      ((processColumn monthTextCol).dtype = Dtype.period ∧
        (processColumn monthTextCol).cells =
          (monthTextCol.cells.map coerceCell).map toPeriodCell)) :=
  ⟨⟨by decide, (handle_dataframe_c3_amended plainDatesCol).1 (by decide)⟩,
   ⟨rfl, (handle_dataframe_c3_amended numericDateCol).2.1 rfl⟩,
   ⟨by decide, by decide, by decide,
    (handle_dataframe_c3_amended partialDateCol).2.2.1
      (by decide) (by decide) (by decide)⟩,
   ⟨by decide, by decide, by decide,
    (handle_dataframe_c3_amended monthTextCol).2.2.2
      (by decide) (by decide) (by decide)⟩⟩

/-- A datetime column whose name contains `month`. -/
def monthDtCol : Col :=
  ⟨"month", Dtype.datetime, [Cell.dt ⟨2020, 1, 15⟩]⟩

/-- C6 counterexample: coercing a table whose only column is already
temporal (datetime dtype) but named `month` does not leave it unchanged —
the column is converted to monthly periods. -/
theorem handle_dataframe_c6_counterexample :
    handle_dataframe [monthDtCol] =
      [⟨"month", Dtype.period, [Cell.per 2020 1]⟩] ∧
    handle_dataframe [monthDtCol] ≠ [monthDtCol] := by
  decide

/-- C6 amended: an already-datetime column (holding only timestamps and
nulls) whose name does not contain `month` is left unchanged by
coercion, and on a table none of whose column names contains `month`
coercing twice yields the same table as coercing once. -/
theorem handle_dataframe_c6_amended (df : List Col)
    (hm : ∀ col ∈ df, ¬ hasMonthKeyword col.name = true) :
    handle_dataframe (handle_dataframe df) = handle_dataframe df ∧
    ∀ col ∈ df, col.dtype = Dtype.datetime →
      col.cells.all isTemporalCell = true →
      processColumn col = col := by
  constructor
  · unfold handle_dataframe
    rw [List.map_map]
    exact List.map_congr_left fun col hc =>
      processColumn_idem col (hm col hc)
  · intro col hc hd ht
    obtain ⟨n, d, cs⟩ := col
    simp only at hd ht
    subst hd
    by_cases hk : hasDTKeyword n = true
    · simp [processColumn, hk, hm _ hc, map_coerceCell_of_temporal ht]
    · simp [processColumn, hk]

/-- A datetime column named `ship_time`, already temporal, no `month`. -/
def shipTimeCol : Col :=
  ⟨"ship_time", Dtype.datetime, [Cell.dt ⟨2021, 6, 1⟩, Cell.null]⟩

theorem handle_dataframe_c6_amended_witness :
    (∀ col ∈ [shipTimeCol, plainDatesCol],
      ¬ hasMonthKeyword col.name = true) ∧
    handle_dataframe (handle_dataframe [shipTimeCol, plainDatesCol]) =
      handle_dataframe [shipTimeCol, plainDatesCol] ∧
    processColumn shipTimeCol = shipTimeCol :=
  ⟨by decide,
   (handle_dataframe_c6_amended [shipTimeCol, plainDatesCol] (by decide)).1,
   (handle_dataframe_c6_amended [shipTimeCol, plainDatesCol] (by decide)).2
     shipTimeCol (by simp) rfl (by decide)⟩

/-! ## Strongest-correlation narrative fact

No narrative-generator source ships in this repository (`app.py` only
renders charts), so this component is modelled from the spec. -/

/-- Lexicographic comparison of character lists by code point. -/
def charListLe : List Char → List Char → Bool
  | [], _ => true
  | _ :: _, [] => false
  | a :: as, b :: bs =>
    if a.toNat < b.toNat then true
    else if b.toNat < a.toNat then false
    else charListLe as bs

/-- Lexicographic string comparison, the order used to sort a pair of
column names into its canonical form. -/
def strLe (a b : String) : Bool := charListLe a.data b.data

/-- Modelled from the spec: the canonical form of a correlation pair — a
sorted 2-tuple of column names (spec §4.3, §8, glossary). -/
def canonicalPair (p : String × String) : String × String :=
  if strLe p.1 p.2 then p else (p.2, p.1)

/-- Modelled from the spec: the full pairwise correlation matrix's index
set over the numeric columns — every ordered pair. -/
def allOrderedPairs (cols : List String) : List (String × String) :=
  cols.flatMap fun a => cols.map fun b => (a, b)

/-- Modelled from the spec: exclude self-pairs, canonicalize each pair as
a sorted tuple, keep one row per canonical pair. -/
def candidatePairs (cols : List String) : List (String × String) :=
  (((allOrderedPairs cols).filter fun p => p.1 ≠ p.2).map canonicalPair).dedup

/-- Modelled from the spec: the ranked correlation list — one entry per
canonical pair of distinct numeric columns, carrying the absolute
correlation coefficient `corr`. -/
def rankedCorrelations (corr : String → String → ℚ) (cols : List String) :
    List (String × String × ℚ) :=
  (candidatePairs cols).map fun p => (p.1, p.2, corr p.1 p.2)

/-- Modelled from the spec: report the entry with maximum coefficient,
ties broken by the ranking's stable iteration order (the first maximum
wins); `none` when the ranking is empty. -/
def pickStrongest : List (String × String × ℚ) → Option (String × String × ℚ)
  | [] => none
  | x :: xs => some (xs.foldl (fun best y => if y.2.2 > best.2.2 then y else best) x)

/-- Modelled from the spec: the strongest-correlation narrative fact,
present exactly when the ranking over the numeric columns is non-empty. -/
def strongestCorrelationFact (corr : String → String → ℚ)
    (cols : List String) : Option (String × String × ℚ) :=
  pickStrongest (rankedCorrelations corr cols)

theorem charListLe_total :
    ∀ as bs, charListLe as bs = true ∨ charListLe bs as = true := by
  intro as
  induction as with
  | nil => intro bs; left; rfl
  | cons a t ih =>
    intro bs
    cases bs with
    | nil => right; rfl
    | cons b u =>
      by_cases h1 : a.toNat < b.toNat
      · left; simp [charListLe, h1]
      · by_cases h2 : b.toNat < a.toNat
        · right; simp [charListLe, h1, h2]
        · rcases ih u with h | h
          · left; simp [charListLe, h1, h2, h]
          · right; simp [charListLe, h1, h2, h]

theorem strLe_total (a b : String) :
    strLe a b = true ∨ strLe b a = true :=
  charListLe_total a.data b.data

theorem mem_candidatePairs {cols : List String} {p : String × String}
    (hp : p ∈ candidatePairs cols) :
    p.1 ∈ cols ∧ p.2 ∈ cols ∧ p.1 ≠ p.2 ∧ strLe p.1 p.2 = true := by
  unfold candidatePairs at hp
  rw [List.mem_dedup] at hp
  obtain ⟨q, hq, hqp⟩ := List.mem_map.mp hp
  rw [List.mem_filter] at hq
  obtain ⟨hq1, hq2⟩ := hq
  unfold allOrderedPairs at hq1
  rw [List.mem_flatMap] at hq1
  obtain ⟨a, ha, hq1⟩ := hq1
  rw [List.mem_map] at hq1
  obtain ⟨b, hb, hab⟩ := hq1
  have hne : q.1 ≠ q.2 := by simpa using hq2
  have hq1c : q.1 = a := by rw [← hab]
  have hq2c : q.2 = b := by rw [← hab]
  unfold canonicalPair at hqp
  by_cases hle : strLe q.1 q.2 = true
  · rw [if_pos hle] at hqp
    subst hqp
    exact ⟨hq1c ▸ ha, hq2c ▸ hb, hne, hle⟩
  · rw [if_neg hle] at hqp
    subst hqp
    rcases strLe_total q.1 q.2 with h | h
    · exact absurd h hle
    · exact ⟨hq2c ▸ hb, hq1c ▸ ha, fun hcontra => hne hcontra.symm, h⟩

theorem candidatePairs_nodup (cols : List String) :
    (candidatePairs cols).Nodup :=
  List.nodup_dedup _

theorem rankedCorrelations_proj (corr : String → String → ℚ)
    (cols : List String) :
    (rankedCorrelations corr cols).map (fun e => (e.1, e.2.1)) =
      candidatePairs cols := by
  unfold rankedCorrelations
  rw [List.map_map]
  have h : ((fun (e : String × String × ℚ) => (e.1, e.2.1)) ∘
      fun (p : String × String) => (p.1, p.2, corr p.1 p.2)) = id := by
    funext p
    rfl
  rw [h, List.map_id]

theorem foldl_best_mem (xs : List (String × String × ℚ)) :
    ∀ x : String × String × ℚ,
      xs.foldl (fun best y => if y.2.2 > best.2.2 then y else best) x ∈ x :: xs := by
  induction xs with
  | nil => intro x; simp
  | cons a t ih =>
    intro x
    simp only [List.foldl_cons]
    rcases List.mem_cons.mp (ih (if a.2.2 > x.2.2 then a else x)) with h1 | h1
    · rw [h1]
      by_cases hc : a.2.2 > x.2.2 <;> simp [hc]
    · exact List.mem_cons_of_mem _ (List.mem_cons_of_mem _ h1)

theorem foldl_best_max (xs : List (String × String × ℚ)) :
    ∀ x y, y ∈ x :: xs →
      y.2.2 ≤ (xs.foldl (fun best z => if z.2.2 > best.2.2 then z else best) x).2.2 := by
  induction xs with
  | nil =>
    intro x y hy
    rw [List.mem_singleton] at hy
    subst hy
    exact le_refl _
  | cons a t ih =>
    intro x y hy
    simp only [List.foldl_cons]
    rcases List.mem_cons.mp hy with rfl | hy1
    · have hxb : y.2.2 ≤ (if a.2.2 > y.2.2 then a else y).2.2 := by
        by_cases hc : a.2.2 > y.2.2 <;> simp [hc]
        linarith
      exact le_trans hxb (ih _ _ (List.mem_cons_self _ _))
    · rcases List.mem_cons.mp hy1 with rfl | hy2
      · have hab : y.2.2 ≤ (if y.2.2 > x.2.2 then y else x).2.2 := by
          by_cases hc : y.2.2 > x.2.2 <;> simp [hc]
          linarith
        exact le_trans hab (ih _ _ (List.mem_cons_self _ _))
      · exact ih _ y (List.mem_cons_of_mem _ hy2)

theorem pickStrongest_mem {l : List (String × String × ℚ)}
    {x : String × String × ℚ} (h : pickStrongest l = some x) : x ∈ l := by
  cases l with
  | nil => simp [pickStrongest] at h
  | cons a t =>
    simp only [pickStrongest, Option.some.injEq] at h
    exact h ▸ foldl_best_mem t a

theorem pickStrongest_max {l : List (String × String × ℚ)}
    {x : String × String × ℚ} (h : pickStrongest l = some x) :
    ∀ y ∈ l, y.2.2 ≤ x.2.2 := by
  cases l with
  | nil => simp [pickStrongest] at h
  | cons a t =>
    simp only [pickStrongest, Option.some.injEq] at h
    exact fun y hy => h ▸ foldl_best_max t a y hy

theorem candidatePairs_ne_nil {cols : List String} (hnd : cols.Nodup)
    (hlen : 2 ≤ cols.length) : candidatePairs cols ≠ [] := by
  match cols, hnd, hlen with
  | a :: b :: t, hnd, _ =>
    have hab : a ≠ b := by
      have := List.nodup_cons.mp hnd
      exact fun h => this.1 (h ▸ List.mem_cons_self b t)
    have hmem : canonicalPair (a, b) ∈ candidatePairs (a :: b :: t) := by
      unfold candidatePairs
      rw [List.mem_dedup]
      refine List.mem_map.mpr ⟨(a, b), ?_, rfl⟩
      rw [List.mem_filter]
      refine ⟨?_, by simpa using hab⟩
      unfold allOrderedPairs
      rw [List.mem_flatMap]
      exact ⟨a, by simp, List.mem_map.mpr ⟨b, by simp, rfl⟩⟩
    exact List.ne_nil_of_mem hmem

theorem two_le_length_of_candidatePairs_ne_nil {cols : List String}
    (h : candidatePairs cols ≠ []) : 2 ≤ cols.length := by
  obtain ⟨p, hp⟩ := List.exists_mem_of_ne_nil _ h
  obtain ⟨h1, h2, hne, _⟩ := mem_candidatePairs hp
  match cols, h1, h2 with
  | [a], h1, h2 =>
    rw [List.mem_singleton] at h1 h2
    exact absurd (h1.trans h2.symm) hne
  | a :: b :: t, _, _ => simp

/-- C7: over a duplicate-free list of numeric column names, the
strongest-correlation fact is present exactly when there are at least two
numeric columns; every entry of the ranked correlation list joins two
distinct numeric columns, the entries' canonical name pairs are pairwise
distinct (so each unordered pair appears at most once), and the reported
entry is a row of the ranking with maximum coefficient. -/
theorem strongestCorrelation_c7 (corr : String → String → ℚ)
    (cols : List String) (hnd : cols.Nodup) :
    ((strongestCorrelationFact corr cols).isSome ↔ 2 ≤ cols.length) ∧
    (∀ e ∈ rankedCorrelations corr cols,
      e.1 ∈ cols ∧ e.2.1 ∈ cols ∧ e.1 ≠ e.2.1) ∧
    ((rankedCorrelations corr cols).map (fun e => (e.1, e.2.1))).Nodup ∧
    (∀ s, strongestCorrelationFact corr cols = some s →
      s ∈ rankedCorrelations corr cols ∧
      ∀ e ∈ rankedCorrelations corr cols, e.2.2 ≤ s.2.2) := by
  refine ⟨?_, ?_, ?_, ?_⟩
  · constructor
    · intro h
      apply two_le_length_of_candidatePairs_ne_nil
      intro hc
      rw [strongestCorrelationFact, rankedCorrelations, hc] at h
      simp [pickStrongest] at h
    · intro h
      have hne := candidatePairs_ne_nil hnd h
      rw [strongestCorrelationFact]
      match hm : rankedCorrelations corr cols with
      | [] =>
        rw [rankedCorrelations] at hm
        exact absurd (List.map_eq_nil_iff.mp hm) hne
      | x :: xs => simp [pickStrongest]
  · intro e he
    obtain ⟨p, hp, hpe⟩ := List.mem_map.mp he
    obtain ⟨h1, h2, hne, _⟩ := mem_candidatePairs hp
    subst hpe
    exact ⟨h1, h2, hne⟩
  · rw [rankedCorrelations_proj]
    exact candidatePairs_nodup cols
  · intro s hs
    exact ⟨pickStrongest_mem hs, pickStrongest_max hs⟩

/-- A concrete absolute-correlation table for three columns. -/
def corrABC : String → String → ℚ := fun a b =>
  if a = "A" ∧ b = "B" then 1
  else if a = "A" ∧ b = "C" then 3
  else if a = "B" ∧ b = "C" then 2
  else 0

theorem strongestCorrelation_c7_witness :
    ([("A" : String), "B", "C"].Nodup ∧
      ((strongestCorrelationFact corrABC ["A", "B", "C"]).isSome ↔
        2 ≤ ([("A" : String), "B", "C"]).length)) ∧
    rankedCorrelations corrABC ["A", "B", "C"] =
      [("A", "B", 1), ("A", "C", 3), ("B", "C", 2)] ∧
    strongestCorrelationFact corrABC ["A", "B", "C"] = some ("A", "C", 3) :=
  ⟨⟨by decide,
    (strongestCorrelation_c7 corrABC ["A", "B", "C"] (by decide)).1⟩,
   by decide, by decide⟩

/-! ## Credential store (`database.py`) -/

/-- A concrete salted digest standing in for werkzeug's password digest:
the digest is a function of the salt and the password, so checking a
candidate password means recomputing it under the stored salt. -/
def digestOf (salt : Nat) (pwd : String) : Nat :=
  pwd.data.foldl (fun acc c => acc * 1114112 + c.toNat + 1) salt

/-- The value stored in the `password` column: a salt/digest pair, the
shape of werkzeug's `method$salt$hash` string. -/
structure HashedPassword where
  salt : Nat
  digest : Nat
deriving DecidableEq, Repr

/-- Model of werkzeug's `generate_password_hash`: the library draws a
random salt internally, so the salt is passed explicitly here; the
stored value is the salt together with the salted digest of the
password, not the password itself. -/
def generate_password_hash (salt : Nat) (pwd : String) : HashedPassword :=
  ⟨salt, digestOf salt pwd⟩

/-- Model of werkzeug's `check_password_hash`: recompute the digest of
the candidate password under the stored salt and compare. -/
def check_password_hash (h : HashedPassword) (pwd : String) : Bool :=
  digestOf h.salt pwd == h.digest

/-- The `users` table: rows of `(username, password-hash)`, keyed by
username (a SQLite `PRIMARY KEY`). -/
abbrev Store := List (String × HashedPassword)

/-- Embedding of `add_user` (database.py lines 38-49): the `INSERT` into
the `users` table raises `sqlite3.IntegrityError` exactly when the
primary-key `username` is already present, which the code catches and
answers with `False`, leaving the table uncommitted; otherwise the row
is committed and the answer is `True`. -/
def add_user (store : Store) (name pwd : String) (salt : Nat) :
    Bool × Store :=
  if (store.lookup name).isSome then (false, store)
  else (true, (name, generate_password_hash salt pwd) :: store)

/-- Embedding of `verify_user` (database.py lines 51-63): `dbOk = false`
models any internal exception (caught by the blanket `except`, answering
`False`); otherwise the stored hash for the name, if any, is checked
against the supplied password, and a missing row answers `False`. -/
def verify_user (dbOk : Bool) (store : Store) (name pwd : String) : Bool :=
  if dbOk then
    match store.lookup name with
    | some h => check_password_hash h pwd
    | none => false
  else false

/-- One client-visible operation against the credential store. -/
inductive Op where
  | addUser (name pwd : String) (salt : Nat) : Op
  | verifyUser (name pwd : String) : Op
deriving DecidableEq, Repr

/-- The store after one operation: `verify_user` never writes. -/
def applyOp (store : Store) : Op → Store
  | Op.addUser name pwd salt => (add_user store name pwd salt).2
  | Op.verifyUser _ _ => store

/-- The store reached from the empty table by a sequence of operations. -/
def runOps (ops : List Op) : Store :=
  ops.foldl applyOp []

theorem mem_foldl_applyOp (ops : List Op) :
    ∀ store name h, (name, h) ∈ ops.foldl applyOp store →
      (name, h) ∈ store ∨
        ∃ salt pwd, Op.addUser name pwd salt ∈ ops ∧
          h = generate_password_hash salt pwd := by
  induction ops with
  | nil => intro store name h hm; left; exact hm
  | cons op t ih =>
    intro store name h hm
    rcases ih (applyOp store op) name h hm with hin | ⟨s, p, hop, he⟩
    · cases op with
      | addUser n p s =>
        simp only [applyOp, add_user] at hin
        by_cases hc : (store.lookup n).isSome = true
        · rw [if_pos hc] at hin
          left; exact hin
        · rw [if_neg hc] at hin
          rcases List.mem_cons.mp hin with heq | hin2
          · have h1 : name = n := congrArg Prod.fst heq
            have h2 : h = generate_password_hash s p := congrArg Prod.snd heq
            subst h1
            subst h2
            exact Or.inr ⟨s, p, List.mem_cons_self _ _, rfl⟩
          · left; exact hin2
      | verifyUser n p => left; exact hin
    · exact Or.inr ⟨s, p, List.mem_cons_of_mem _ hop, he⟩

/-- C8: `add_user` answers `false` and leaves the store unchanged when
the username is already present, and answers `true` and inserts the
salted hash when the username is new. -/
theorem add_user_c8 (store : Store) (name pwd : String) (salt : Nat) :
    ((store.lookup name).isSome = true →
      add_user store name pwd salt = (false, store)) ∧
    ((store.lookup name).isSome = false →
      add_user store name pwd salt =
        (true, (name, generate_password_hash salt pwd) :: store)) := by
  constructor <;> intro h <;> simp [add_user, h]

/-- A one-user store produced by a successful registration. -/
def demoStore : Store := [("alice", generate_password_hash 7 "pw1")]

theorem add_user_c8_witness :
    ((demoStore.lookup "alice").isSome = true ∧
      add_user demoStore "alice" "pw2" 9 = (false, demoStore)) ∧
    ((demoStore.lookup "bob").isSome = false ∧
      add_user demoStore "bob" "pw2" 9 =
        (true, ("bob", generate_password_hash 9 "pw2") :: demoStore)) :=
  ⟨⟨by decide, (add_user_c8 demoStore "alice" "pw2" 9).1 (by decide)⟩,
   ⟨by decide, (add_user_c8 demoStore "bob" "pw2" 9).2 (by decide)⟩⟩

/-- C9: after any sequence of credential-store operations from the empty
table, every stored value is the salted hash of the password supplied at
that username's registration — a `HashedPassword`, never the cleartext
password — and, absent database errors, `verify_user` answers `true`
exactly when the hash stored for the name matches the supplied password. -/
theorem store_hashed_c9 (ops : List Op) :
    (∀ name h, (name, h) ∈ runOps ops →
      ∃ salt pwd, Op.addUser name pwd salt ∈ ops ∧
        h = generate_password_hash salt pwd) ∧
    (∀ store : Store, ∀ name pwd,
      verify_user true store name pwd = true ↔
        ∃ h, store.lookup name = some h ∧ check_password_hash h pwd = true) := by
  constructor
  · intro name h hm
    rcases mem_foldl_applyOp ops [] name h hm with hin | hgood
    · simp at hin
    · exact hgood
  · intro store name pwd
    cases hl : store.lookup name with
    | none => simp [verify_user, hl]
    | some h => simp [verify_user, hl]

theorem store_hashed_c9_witness :
    (∀ name h,
      (name, h) ∈ runOps [Op.addUser "alice" "pw1" 7] →
      ∃ salt pwd,
        Op.addUser name pwd salt ∈ [Op.addUser "alice" "pw1" 7] ∧
          h = generate_password_hash salt pwd) ∧
    (verify_user true demoStore "alice" "pw1" = true ↔
      ∃ h, demoStore.lookup "alice" = some h ∧
        check_password_hash h "pw1" = true) :=
  ⟨(store_hashed_c9 [Op.addUser "alice" "pw1" 7]).1,
   (store_hashed_c9 [Op.addUser "alice" "pw1" 7]).2 demoStore "alice" "pw1"⟩

/-- C10: `verify_user` always answers a boolean — `false` on any internal
database error, `false` for a username not in the store — and answers
`true` only when the hash stored for the name matches the password. -/
theorem verify_user_c10 (dbOk : Bool) (store : Store) (name pwd : String) :
    (verify_user dbOk store name pwd = true ∨
      verify_user dbOk store name pwd = false) ∧
    (dbOk = false → verify_user dbOk store name pwd = false) ∧
    (store.lookup name = none → verify_user dbOk store name pwd = false) ∧
    (verify_user dbOk store name pwd = true →
      ∃ h, store.lookup name = some h ∧ check_password_hash h pwd = true) := by
  refine ⟨?_, ?_, ?_, ?_⟩
  · cases hv : verify_user dbOk store name pwd
    · right; rfl
    · left; rfl
  · intro h
    simp [verify_user, h]
  · intro h
    cases dbOk <;> simp [verify_user, h]
  · intro h
    cases dbOk with
    | false => simp [verify_user] at h
    | true =>
      cases hl : store.lookup name with
      | none => simp [verify_user, hl] at h
      | some hp =>
        simp only [verify_user, if_pos, hl] at h
        exact ⟨hp, rfl, h⟩

theorem verify_user_c10_witness :
    (verify_user false demoStore "alice" "pw1" = false) ∧
    (demoStore.lookup "bob" = none ∧
      verify_user true demoStore "bob" "pw1" = false) ∧
    verify_user true demoStore "alice" "pw1" = true :=
  ⟨(verify_user_c10 false demoStore "alice" "pw1").2.1 rfl,
   ⟨by decide, (verify_user_c10 true demoStore "bob" "pw1").2.2.1 (by decide)⟩,
   by decide⟩

end CsvViz
